import Mathlib

/-!
# opentracing-gorm: span lifecycle of the tracing hooks

Shallow embedding of `otgorm.go`.  The Go file drives two collaborators that are not part of the
repository: the tracer (`opentracing-go`, with the `mocktracer` the test suite installs) and the
data-access layer (`jinzhu/gorm`).  Both are represented by small explicit state models, and the
functions of `otgorm.go` are translated line by line on top of them.
-/

namespace Otgorm

/-! ## Go strings (`strings.Split`, `strings.ToUpper`) -/

/-- Loop of `strings.Split(s, sep)` for a one-rune separator: `acc` holds, reversed, the runes of
the segment being read; every separator closes the segment; the end of input closes the last
one. -/
def splitLoop (sep : Char) : List Char → List Char → List (List Char)
  | acc, [] => [acc.reverse]
  | acc, c :: cs =>
    if c = sep then acc.reverse :: splitLoop sep [] cs else splitLoop sep (c :: acc) cs

/-- Model of `strings.Split(s, sep)` when `sep` is a single rune (the source passes `" "`). -/
def Split (s : String) (sep : Char) : List String :=
  (splitLoop sep [] s.data).map String.mk

/-- Case mapping of one rune by `strings.ToUpper`: ASCII letters `a`..`z` are shifted to
`A`..`Z`, other ASCII runes are kept, and a rune outside ASCII goes through the Unicode table
`U` (`unicode.ToUpper` of the Go runtime, a parameter here). -/
def toUpperRune (U : Char → Char) (c : Char) : Char :=
  if c.toNat < 128 then c.toUpper else U c

/-- Model of `strings.ToUpper` on a valid UTF-8 string. -/
def ToUpper (U : Char → Char) (s : String) : String :=
  String.mk (s.data.map (toUpperRune U))

/-! ## Key/value maps (`sync.Map` of gorm settings, tag maps of spans) -/

/-- Map lookup: `Load` of a `sync.Map`, indexing of a Go map. -/
def load {κ α : Type} [DecidableEq κ] : List (κ × α) → κ → Option α
  | [], _ => none
  | (k', v) :: rest, k => if k' = k then some v else load rest k

/-- Map update: `Store` of a `sync.Map`, assignment `m[k] = v` of a Go map.  An existing entry
is overwritten in place, a new key is added at the end. -/
def store {κ α : Type} [DecidableEq κ] : List (κ × α) → κ → α → List (κ × α)
  | [], k, v => [(k, v)]
  | (k', v') :: rest, k, v =>
    if k' = k then (k, v) :: rest else (k', v') :: store rest k v

/-! ## Tracer collaborator (`opentracing-go`, `mocktracer`) -/

/-- Values the hooks pass to `SetTag`: Go `bool`, `string` and `int64`. -/
inductive TagValue where
  | bool (b : Bool)
  | str (s : String)
  | int64 (i : Int)
deriving DecidableEq, Repr

/-- Span context (`MockSpanContext`): trace identifier and span identifier. -/
structure SpanContext where
  traceID : Nat
  spanID : Nat
deriving DecidableEq, Repr

/-- A span as Go code holds it (`opentracing.Span`): the tracer that made it and what
`StartSpan` fixed.  Tags and the finished flag are mutable and live in `World`. -/
structure Span where
  tracer : Nat
  context : SpanContext
  parentID : Nat
  operationName : String
deriving DecidableEq, Repr

/-- Accessor `Span.Tracer()`. -/
def Span.Tracer (sp : Span) : Nat := sp.tracer

/-- Accessor `Span.Context()`. -/
def Span.Context (sp : Span) : SpanContext := sp.context

/-- Kind of a span reference. -/
inductive RefType where
  | ChildOfRef
  | FollowsFromRef
deriving DecidableEq, Repr

/-- A start option `opentracing.SpanReference`. -/
structure SpanReference where
  type : RefType
  referencedContext : SpanContext
deriving DecidableEq, Repr

/-- Start option `opentracing.ChildOf(sc)`. -/
def ChildOf (sc : SpanContext) : SpanReference :=
  ⟨RefType.ChildOfRef, sc⟩

/-- State of the tracing side: the identifier source, the spans handed out by `StartSpan`
(oldest first), the tag map of every span, and the spans recorded by `Finish` in completion
order (all tracers together; `FinishedSpans` selects one tracer). -/
structure World where
  nextID : Nat
  started : List Span
  tags : List (Span × List (String × TagValue))
  finished : List Span
deriving DecidableEq

/-- Tag map of a span (`MockSpan.Tags()`); a span never tagged has the empty map. -/
def World.tagsOf (w : World) (sp : Span) : List (String × TagValue) :=
  (load w.tags sp).getD []

/-- Model of `Tracer.StartSpan(operationName, opts...)` on tracer `tr`: with a reference the
span joins the referenced trace and takes the referenced span as parent, otherwise it opens a
trace of its own; the span identifier is fresh and the tag map starts empty. -/
def StartSpan (w : World) (tr : Nat) (operationName : String) (opts : List SpanReference) :
    World × Span :=
  let traceID := w.nextID + 1
  let spanID := w.nextID + 2
  let sp : Span :=
    match opts with
    | [] => ⟨tr, ⟨traceID, spanID⟩, 0, operationName⟩
    | r :: _ => ⟨tr, ⟨r.referencedContext.traceID, spanID⟩, r.referencedContext.spanID,
        operationName⟩
  ({ nextID := w.nextID + 2, started := w.started ++ [sp], tags := store w.tags sp [],
     finished := w.finished }, sp)

/-- Model of `Span.SetTag(key, value)`. -/
def SetTag (w : World) (sp : Span) (key : String) (value : TagValue) : World :=
  { w with tags := store w.tags sp (store (w.tagsOf sp) key value) }

/-- Model of `Span.Finish()`: the tracer records the span at the end of its finished list. -/
def Finish (w : World) (sp : Span) : World :=
  { w with finished := w.finished ++ [sp] }

/-- Model of `MockTracer.FinishedSpans()` for tracer `tr`. -/
def FinishedSpans (w : World) (tr : Nat) : List Span :=
  w.finished.filter (fun sp => sp.tracer = tr)

/-- Tag helper `ext.DBType.Set(span, value)`. -/
def DBType_Set (w : World) (sp : Span) (value : String) : World :=
  SetTag w sp "db.type" (TagValue.str value)

/-- Tag helper `ext.Error.Set(span, value)`. -/
def Error_Set (w : World) (sp : Span) (value : Bool) : World :=
  SetTag w sp "error" (TagValue.bool value)

/-- Tag helper `ext.DBStatement.Set(span, value)`. -/
def DBStatement_Set (w : World) (sp : Span) (value : String) : World :=
  SetTag w sp "db.statement" (TagValue.str value)

/-- A `context.Context` as far as this package reads it: the active span, if any. -/
structure Context where
  activeSpan : Option Span
deriving DecidableEq, Repr

/-- Model of `opentracing.SpanFromContext(ctx)`. -/
def SpanFromContext (ctx : Context) : Option Span := ctx.activeSpan

/-- Model of `opentracing.ContextWithSpan(ctx, span)`. -/
def ContextWithSpan (_ctx : Context) (sp : Span) : Context := ⟨some sp⟩

/-- Model of `opentracing.StartSpanFromContext` with `tr` as the global tracer. -/
def StartSpanFromContext (w : World) (tr : Nat) (ctx : Context) (operationName : String) :
    World × Span × Context :=
  let opts :=
    match SpanFromContext ctx with
    | some parentSpan => [ChildOf parentSpan.Context]
    | none => []
  let r := StartSpan w tr operationName opts
  (r.1, r.2, ContextWithSpan ctx r.2)

/-! ## Data-access collaborator (`jinzhu/gorm`) -/

/-- A Go `interface{}` stored in the settings of a handle: a span, or any other value. -/
inductive Value where
  | span (sp : Span)
  | other (repr : String)
deriving DecidableEq, Repr

/-- The ten hook functions of `callbacks`. -/
inductive Hook where
  | beforeCreate | afterCreate
  | beforeQuery | afterQuery
  | beforeUpdate | afterUpdate
  | beforeDelete | afterDelete
  | beforeRowQuery | afterRowQuery
deriving DecidableEq, Repr

/-- A registration in gorm (`CallbackProcessor`): the chain it belongs to (`kind`), the name of
the step it must precede (`before`) or follow (`after`), its own name and its function. -/
structure CallbackProcessor where
  name : String
  before : String
  after : String
  kind : String
  processor : Hook
deriving DecidableEq, Repr

/-- A handle `*gorm.DB`: settings, error, rows affected, result value, callback registry. -/
structure DB where
  values : List (String × Value)
  Error : Option String
  RowsAffected : Int
  Value : String
  processors : List CallbackProcessor
deriving DecidableEq, Repr

/-- Method `DB.Get(name)`. -/
def DB.Get (db : DB) (name : String) : Option Otgorm.Value := load db.values name

/-- Method `DB.clone()`: a new handle with the settings, the error, the result value and the
callback registry of the receiver; `RowsAffected` is not copied and starts at zero. -/
def DB.clone (db : DB) : DB :=
  { values := db.values, Error := db.Error, RowsAffected := 0, Value := db.Value,
    processors := db.processors }

/-- Method `DB.InstantSet(name, value)`: stores the setting on the receiver itself. -/
def DB.InstantSet (db : DB) (name : String) (value : Otgorm.Value) : DB :=
  { db with values := store db.values name value }

/-- Method `DB.Set(name, value)`: `s.clone().InstantSet(name, value)`. -/
def DB.Set (db : DB) (name : String) (value : Otgorm.Value) : DB :=
  db.clone.InstantSet name value

/-- Registration `db.Callback().<Kind>().Before(target).Register(name, fn)`. -/
def DB.registerBefore (db : DB) (kind target name : String) (fn : Hook) : DB :=
  { db with processors := db.processors ++ [⟨name, target, "", kind, fn⟩] }

/-- Registration `db.Callback().<Kind>().After(target).Register(name, fn)`. -/
def DB.registerAfter (db : DB) (kind target name : String) (fn : Hook) : DB :=
  { db with processors := db.processors ++ [⟨name, "", target, kind, fn⟩] }

/-- An operation scope `*gorm.Scope`: its own handle, the rendered statement, and the table
name that `TableName()` reports. -/
structure Scope where
  db : DB
  SQL : String
  tableName : String
deriving DecidableEq, Repr

/-- Method `Scope.Get(name)`. -/
def Scope.Get (scope : Scope) (name : String) : Option Value := scope.db.Get name

/-- Method `Scope.Set(name, value)`: stores the setting on the scope handle in place. -/
def Scope.Set (scope : Scope) (name : String) (value : Value) : Scope :=
  { scope with db := scope.db.InstantSet name value }

/-- Method `Scope.HasError()`. -/
def Scope.HasError (scope : Scope) : Bool := scope.db.Error.isSome

/-- Method `Scope.TableName()`. -/
def Scope.TableName (scope : Scope) : String := scope.tableName

/-- Method `Scope.DB()`. -/
def Scope.DB (scope : Scope) : DB := scope.db

/-- Method `DB.NewScope(value)`: the scope of one operation, on a clone of the handle whose
result value is set to `value`; `tableName` is what `TableName()` derives from `value`. -/
def DB.NewScope (db : DB) (value : String) (tableName : String) : Scope :=
  ⟨{ db.clone with Value := value }, "", tableName⟩

/-- Memory of handle records: a `*gorm.DB` is an address into `cells`. -/
structure Memory where
  cells : List DB
deriving DecidableEq, Repr

/-- Record behind a pointer; `none` for an address that holds nothing. -/
def Memory.read (m : Memory) (a : Nat) : Option DB := m.cells[a]?

/-- Allocation of a new record; its address is returned with the memory. -/
def Memory.alloc (m : Memory) (db : DB) : Memory × Nat :=
  (⟨m.cells ++ [db]⟩, m.cells.length)

/-- Method `DB.InstantSet` through a pointer: the record at `a` is overwritten in place. -/
def Memory.InstantSet (m : Memory) (a : Nat) (name : String) (value : Value) : Option Memory :=
  match m.read a with
  | none => none
  | some db => some ⟨m.cells.set a (db.InstantSet name value)⟩

/-- Method `DB.Set` through a pointer, `s.clone().InstantSet(name, value)`: the clone is a new
record and the setting is stored on it; the pointer to the clone is returned. -/
def Memory.Set (m : Memory) (a : Nat) (name : String) (value : Value) : Option (Memory × Nat) :=
  match m.read a with
  | none => none
  | some db =>
    match (m.alloc db.clone).1.InstantSet (m.alloc db.clone).2 name value with
    | none => none
    | some m2 => some (m2, (m.alloc db.clone).2)

/-- What the built-in step of a chain leaves behind: statement, error, rows, result. -/
structure Outcome where
  SQL : String
  Error : Option String
  RowsAffected : Int
  Value : String
deriving DecidableEq, Repr

/-- The built-in step (`gorm:create`, `gorm:query`, ...): it writes the outcome of the
operation into the scope and does not touch the settings. -/
def execute (o : Outcome) (scope : Scope) : Scope :=
  { scope with
    SQL := o.SQL
    db := { scope.db with Error := o.Error, RowsAffected := o.RowsAffected, Value := o.Value } }

/-! ## `otgorm.go` -/

/-- Constant `parentSpanGORMKey`. -/
def parentSpanGORMKey : String := "opentracing:parent.span"

/-- Constant `spanGORMKey`. -/
def spanGORMKey : String := "opentracing:span"

/-- Variable `callbackCreateName`. -/
def callbackCreateName : String := "create"

/-- Variable `callbackQueryName`. -/
def callbackQueryName : String := "query"

/-- Variable `callbackUpdateName`. -/
def callbackUpdateName : String := "update"

/-- Variable `callbackDeleteName`. -/
def callbackDeleteName : String := "delete"

/-- Variable `callbackRowQueryName`. -/
def callbackRowQueryName : String := "row_query"

/-- Variable `SQLSpanOpName`. -/
def SQLSpanOpName : String := "sql"

/-- Function `SetSpanToGORM(ctx, db)`; `none` is the nil context. -/
def SetSpanToGORM (ctx : Option Context) (db : DB) : DB :=
  match ctx with
  | none => db
  | some c =>
    match SpanFromContext c with
    | none => db
    | some parentSpan => db.Set parentSpanGORMKey (Value.span parentSpan)

/-- Function `WithContext(ctx, db)`. -/
def WithContext (ctx : Option Context) (db : DB) : DB :=
  SetSpanToGORM ctx db

/-- Function `SetSpanToGORM(ctx, db)` on pointers: `db` is an address in `m`, the result is the
memory after the call with the returned pointer; `none` is a dereference of an address that
holds nothing. -/
def Memory.SetSpanToGORM (m : Memory) (ctx : Option Context) (db : Nat) :
    Option (Memory × Nat) :=
  match ctx with
  | none => some (m, db)
  | some c =>
    match SpanFromContext c with
    | none => some (m, db)
    | some parentSpan => m.Set db parentSpanGORMKey (Value.span parentSpan)

/-- Invariant of the two settings of this package: a span key is only there together with a
parent-span key (the span key is written by `before` alone, behind its parent-span guard). -/
def DB.spanKeyGuarded (db : DB) : Bool :=
  (db.Get spanGORMKey).isNone || (db.Get parentSpanGORMKey).isSome

/-- Function `registerCallbacks(db, name, c)`. -/
def registerCallbacks (db : DB) (name : String) : DB :=
  let beforeName := "tracing:" ++ name ++ "_before"
  let afterName := "tracing:" ++ name ++ "_after"
  let gormCallbackName := "gorm:" ++ name
  if name = callbackCreateName then
    (db.registerBefore "create" gormCallbackName beforeName Hook.beforeCreate).registerAfter
      "create" gormCallbackName afterName Hook.afterCreate
  else if name = callbackQueryName then
    (db.registerBefore "query" gormCallbackName beforeName Hook.beforeQuery).registerAfter
      "query" gormCallbackName afterName Hook.afterQuery
  else if name = callbackUpdateName then
    (db.registerBefore "update" gormCallbackName beforeName Hook.beforeUpdate).registerAfter
      "update" gormCallbackName afterName Hook.afterUpdate
  else if name = callbackDeleteName then
    (db.registerBefore "delete" gormCallbackName beforeName Hook.beforeDelete).registerAfter
      "delete" gormCallbackName afterName Hook.afterDelete
  else if name = callbackRowQueryName then
    (db.registerBefore "row_query" gormCallbackName beforeName Hook.beforeRowQuery).registerAfter
      "row_query" gormCallbackName afterName Hook.afterRowQuery
  else db

/-- Function `AddGORMCallbacks(db)`. -/
def AddGORMCallbacks (db : DB) : DB :=
  let db1 := registerCallbacks db callbackCreateName
  let db2 := registerCallbacks db1 callbackQueryName
  let db3 := registerCallbacks db2 callbackUpdateName
  let db4 := registerCallbacks db3 callbackDeleteName
  registerCallbacks db4 callbackRowQueryName

/-- State after a hook ran: tracer side, scope, and whether the hook panicked (a failed type
assertion `val.(opentracing.Span)` or an index out of range). -/
structure Run where
  world : World
  scope : Scope
  panicked : Bool
deriving DecidableEq

/-- Type assertion `val.(opentracing.Span)`. -/
def Value.asSpan : Value → Option Span
  | Value.span sp => some sp
  | Value.other _ => none

/-- Method `callbacks.before(scope)`. -/
def before (w : World) (scope : Scope) : Run :=
  match scope.Get parentSpanGORMKey with
  | none => ⟨w, scope, false⟩
  | some val =>
    match val.asSpan with
    | none => ⟨w, scope, true⟩
    | some parentSpan =>
      let tr := parentSpan.Tracer
      let r := StartSpan w tr SQLSpanOpName [ChildOf parentSpan.Context]
      let sp := r.2
      let w1 := DBType_Set r.1 sp SQLSpanOpName
      ⟨w1, scope.Set spanGORMKey (Value.span sp), false⟩

/-- Lines 103 to 105 of `callbacks.after`: the operation label; `none` is the panic of
indexing an empty slice at 0. -/
def resolveOperation (U : Char → Char) (operation : String) (sql : String) : Option String :=
  if operation = "" then
    match (Split sql ' ').head? with
    | some first => some (ToUpper U first)
    | none => none
  else some operation

/-- Method `callbacks.after(scope, operation)`. -/
def after (U : Char → Char) (w : World) (scope : Scope) (operation : String) : Run :=
  match scope.Get spanGORMKey with
  | none => ⟨w, scope, false⟩
  | some val =>
    match val.asSpan with
    | none => ⟨w, scope, true⟩
    | some sp =>
      match resolveOperation U operation scope.SQL with
      | none => ⟨w, scope, true⟩
      | some op =>
        let w1 := Error_Set w sp scope.HasError
        let w2 := DBStatement_Set w1 sp scope.SQL
        let w3 := SetTag w2 sp "db.table" (TagValue.str scope.TableName)
        let w4 := SetTag w3 sp "db.method" (TagValue.str op)
        let w5 := SetTag w4 sp "db.err" (TagValue.bool scope.HasError)
        let w6 := SetTag w5 sp "db.count" (TagValue.int64 scope.DB.RowsAffected)
        ⟨Finish w6 sp, scope, false⟩

/-- Method `callbacks.beforeCreate`. -/
def beforeCreate (w : World) (scope : Scope) : Run := before w scope

/-- Method `callbacks.afterCreate`. -/
def afterCreate (U : Char → Char) (w : World) (scope : Scope) : Run := after U w scope "INSERT"

/-- Method `callbacks.beforeQuery`. -/
def beforeQuery (w : World) (scope : Scope) : Run := before w scope

/-- Method `callbacks.afterQuery`. -/
def afterQuery (U : Char → Char) (w : World) (scope : Scope) : Run := after U w scope "SELECT"

/-- Method `callbacks.beforeUpdate`. -/
def beforeUpdate (w : World) (scope : Scope) : Run := before w scope

/-- Method `callbacks.afterUpdate`. -/
def afterUpdate (U : Char → Char) (w : World) (scope : Scope) : Run := after U w scope "UPDATE"

/-- Method `callbacks.beforeDelete`. -/
def beforeDelete (w : World) (scope : Scope) : Run := before w scope

/-- Method `callbacks.afterDelete`. -/
def afterDelete (U : Char → Char) (w : World) (scope : Scope) : Run := after U w scope "DELETE"

/-- Method `callbacks.beforeRowQuery`. -/
def beforeRowQuery (w : World) (scope : Scope) : Run := before w scope

/-- Method `callbacks.afterRowQuery`. -/
def afterRowQuery (U : Char → Char) (w : World) (scope : Scope) : Run := after U w scope ""

/-- Execution of a registered hook function. -/
def Hook.run (U : Char → Char) (h : Hook) (w : World) (scope : Scope) : Run :=
  match h with
  | Hook.beforeCreate => Otgorm.beforeCreate w scope
  | Hook.afterCreate => Otgorm.afterCreate U w scope
  | Hook.beforeQuery => Otgorm.beforeQuery w scope
  | Hook.afterQuery => Otgorm.afterQuery U w scope
  | Hook.beforeUpdate => Otgorm.beforeUpdate w scope
  | Hook.afterUpdate => Otgorm.afterUpdate U w scope
  | Hook.beforeDelete => Otgorm.beforeDelete w scope
  | Hook.afterDelete => Otgorm.afterDelete U w scope
  | Hook.beforeRowQuery => Otgorm.beforeRowQuery w scope
  | Hook.afterRowQuery => Otgorm.afterRowQuery U w scope

/-- Sequencing inside one operation: a panic aborts what follows. -/
def Run.andThen (r : Run) (f : World → Scope → Run) : Run :=
  if r.panicked then r else f r.world r.scope

/-- The five operation categories that `AddGORMCallbacks` instruments. -/
inductive Category where
  | create
  | query
  | update
  | delete
  | row_query
deriving DecidableEq, Repr

/-- Name of a category: `callbackCreateName` .. `callbackRowQueryName`. -/
def Category.name : Category → String
  | Category.create => callbackCreateName
  | Category.query => callbackQueryName
  | Category.update => callbackUpdateName
  | Category.delete => callbackDeleteName
  | Category.row_query => callbackRowQueryName

/-- Before-hook of a category, as paired by the `switch` of `registerCallbacks`. -/
def Category.beforeHook : Category → Hook
  | Category.create => Hook.beforeCreate
  | Category.query => Hook.beforeQuery
  | Category.update => Hook.beforeUpdate
  | Category.delete => Hook.beforeDelete
  | Category.row_query => Hook.beforeRowQuery

/-- After-hook of a category, as paired by the `switch` of `registerCallbacks`. -/
def Category.afterHook : Category → Hook
  | Category.create => Hook.afterCreate
  | Category.query => Hook.afterQuery
  | Category.update => Hook.afterUpdate
  | Category.delete => Hook.afterDelete
  | Category.row_query => Hook.afterRowQuery

/-- Label that the after-hook of a category passes to `after`. -/
def Category.label : Category → String
  | Category.create => "INSERT"
  | Category.query => "SELECT"
  | Category.update => "UPDATE"
  | Category.delete => "DELETE"
  | Category.row_query => ""

/-- Before-hook of a category followed by its after-hook, on the same scope. -/
def beforeThenAfter (U : Char → Char) (c : Category) (w : World) (scope : Scope) : Run :=
  (c.beforeHook.run U w scope).andThen (c.afterHook.run U)

/-! ## `otgorm_test.go` -/

/-- Variable `spanSecondOpName`. -/
def spanSecondOpName : String := "handler"

/-- One query through a handle (`db.First(&product, 1)`): a scope for the call, the before-hook,
the built-in step with outcome `o`, the after-hook. -/
def First (U : Char → Char) (o : Outcome) (w : World) (db : DB) (value tableName : String) :
    Run :=
  (beforeQuery w (db.NewScope value tableName)).andThen
    (fun w1 scope1 => afterQuery U w1 (execute o scope1))

/-- Function `Handler(ctx)` with `tr` as the global tracer and `db` as the shared handle; the
deferred `span.Finish()` runs last. -/
def Handler (U : Char → Char) (o : Outcome) (w : World) (tr : Nat) (ctx : Context) (db : DB)
    (value tableName : String) : World :=
  let r := StartSpanFromContext w tr ctx spanSecondOpName
  let span := r.2.1
  let db1 := WithContext (some r.2.2) db
  let run := First U o r.1 db1 value tableName
  Finish run.world span

/-! ## Operation Classifier as the specification words it -/

/-- White space in the sense of `unicode.IsSpace`. -/
def isSpace (c : Char) : Bool :=
  c = ' ' || c = '\t' || c = '\n' || c = '\r' || c.toNat = 11 || c.toNat = 12 ||
  c.toNat = 0x85 || c.toNat = 0xA0 || c.toNat = 0x1680 ||
  (0x2000 ≤ c.toNat && c.toNat ≤ 0x200A) || c.toNat = 0x2028 || c.toNat = 0x2029 ||
  c.toNat = 0x202F || c.toNat = 0x205F || c.toNat = 0x3000

/-- First token of a statement split on white space; empty when the statement has no token. -/
def firstToken (s : List Char) : List Char :=
  (s.dropWhile isSpace).takeWhile (fun c => !isSpace c)

/-- Specification of the classifier: a non-empty fixed label is returned unchanged, otherwise
the statement is split on white space and its first token is upper-cased. -/
def classify (U : Char → Char) (fixed_label rendered_statement : String) : String :=
  if fixed_label ≠ "" then fixed_label
  else ToUpper U (String.mk (firstToken rendered_statement.data))

/-! ## Concrete states -/

/-- A tracer side on which nothing has happened yet (the identifier source starts at 42). -/
def freshWorld : World := ⟨42, [], [], []⟩

/-- A handle without settings and without registered hooks. -/
def plainDB : DB := ⟨[], none, 0, "", []⟩

/-- The span that a request handler opens on tracer 0 of `freshWorld`. -/
def rootSpan : Span := (StartSpan freshWorld 0 spanSecondOpName []).2

/-- The tracer side once `rootSpan` is open. -/
def tracedWorld : World := (StartSpan freshWorld 0 spanSecondOpName []).1

/-- A scope of a traced call: the parent-span key holds `rootSpan`. -/
def tracedScope : Scope :=
  ⟨plainDB.Set parentSpanGORMKey (Value.span rootSpan), "SELECT 1", "products"⟩

/-- A scope without settings. -/
def untracedScope : Scope := ⟨plainDB, "SELECT 1", "products"⟩

/-- A memory that holds the handle `plainDB` at address 0. -/
def plainMemory : Memory := ⟨[plainDB]⟩

/-- A scope of a raw row query whose span key holds `rootSpan`. -/
def openScope (sql : String) : Scope :=
  ⟨(plainDB.Set parentSpanGORMKey (Value.span rootSpan)).Set spanGORMKey
    (Value.span rootSpan), sql, "products"⟩

/-! ## Maps -/

theorem load_store_same {κ α : Type} [DecidableEq κ] (m : List (κ × α)) (k : κ) (v : α) :
    load (store m k v) k = some v := by
  induction m with
  | nil => simp [store, load]
  | cons e rest ih =>
    obtain ⟨k1, v1⟩ := e
    by_cases h : k1 = k <;> simp [store, load, h, ih]

theorem load_store_ne {κ α : Type} [DecidableEq κ] (m : List (κ × α)) (k k2 : κ) (v : α)
    (h : k2 ≠ k) : load (store m k v) k2 = load m k2 := by
  induction m with
  | nil =>
    have h2 : ¬ k = k2 := fun e => h e.symm
    simp [store, load, h2]
  | cons e rest ih =>
    obtain ⟨k1, v1⟩ := e
    by_cases h1 : k1 = k
    · subst h1
      have h2 : ¬ k1 = k2 := fun e => h e.symm
      simp [store, load, h2]
    · by_cases h3 : k1 = k2
      · subst h3
        simp [store, load, h1]
      · simp [store, load, h1, h3, ih]

/-! ## Strings -/

theorem splitLoop_head (sep : Char) (s acc : List Char) :
    (splitLoop sep acc s).head? = some (acc.reverse ++ s.takeWhile (fun c => c ≠ sep)) := by
  induction s generalizing acc with
  | nil => simp [splitLoop]
  | cons c cs ih =>
    by_cases h : c = sep
    · simp [splitLoop, h]
    · simp [splitLoop, h, ih]

theorem Split_head (s : String) (sep : Char) :
    (Split s sep).head? = some (String.mk (s.data.takeWhile (fun c => c ≠ sep))) := by
  simp [Split, List.head?_map, splitLoop_head]

theorem resolveOperation_eq (U : Char → Char) (operation sql : String) :
    resolveOperation U operation sql =
      some (if operation = "" then
        ToUpper U (String.mk (sql.data.takeWhile (fun c => c ≠ ' '))) else operation) := by
  unfold resolveOperation
  by_cases h : operation = ""
  · simp [h, Split_head]
  · simp [h]

/-! ## Tracer -/

theorem tagsOf_SetTag (w : World) (sp : Span) (key : String) (value : TagValue) :
    (SetTag w sp key value).tagsOf sp = store (w.tagsOf sp) key value := by
  simp [SetTag, World.tagsOf, load_store_same]

theorem tagsOf_StartSpan (w : World) (tr : Nat) (name : String) (opts : List SpanReference) :
    (StartSpan w tr name opts).1.tagsOf (StartSpan w tr name opts).2 = [] := by
  simp [StartSpan, World.tagsOf, load_store_same]

theorem tagsOf_Finish (w : World) (sp sp2 : Span) :
    (Finish w sp).tagsOf sp2 = w.tagsOf sp2 := rfl

/-! ## Hooks -/

theorem Scope_Get_Set (s : Scope) (k : String) (v : Value) :
    (s.Set k v).Get k = some v := by
  simp [Scope.Set, Scope.Get, DB.Get, DB.InstantSet, load_store_same]

theorem Scope_Get_Set_ne (s : Scope) (k k2 : String) (v : Value) (h : k2 ≠ k) :
    (s.Set k v).Get k2 = s.Get k2 := by
  simp [Scope.Set, Scope.Get, DB.Get, DB.InstantSet, load_store_ne _ _ _ _ h]

theorem before_of_span (w : World) (s : Scope) (p : Span)
    (hp : s.Get parentSpanGORMKey = some (Value.span p)) :
    before w s =
      ⟨DBType_Set (StartSpan w p.Tracer SQLSpanOpName [ChildOf p.Context]).1
          (StartSpan w p.Tracer SQLSpanOpName [ChildOf p.Context]).2 SQLSpanOpName,
        s.Set spanGORMKey (Value.span (StartSpan w p.Tracer SQLSpanOpName [ChildOf p.Context]).2),
        false⟩ := by
  simp [before, hp, Value.asSpan]

theorem before_of_absent (w : World) (s : Scope) (hp : s.Get parentSpanGORMKey = none) :
    before w s = ⟨w, s, false⟩ := by
  simp [before, hp]

theorem before_of_non_span (w : World) (s : Scope) (repr : String)
    (hp : s.Get parentSpanGORMKey = some (Value.other repr)) :
    before w s = ⟨w, s, true⟩ := by
  simp [before, hp, Value.asSpan]

theorem after_of_non_span (U : Char → Char) (w : World) (s : Scope) (operation repr : String)
    (hs : s.Get spanGORMKey = some (Value.other repr)) :
    after U w s operation = ⟨w, s, true⟩ := by
  simp [after, hs, Value.asSpan]

theorem after_of_absent (U : Char → Char) (w : World) (s : Scope) (operation : String)
    (hs : s.Get spanGORMKey = none) : after U w s operation = ⟨w, s, false⟩ := by
  simp [after, hs]

theorem after_of_span (U : Char → Char) (w : World) (s : Scope) (operation : String) (sp : Span)
    (hs : s.Get spanGORMKey = some (Value.span sp)) :
    after U w s operation =
      ⟨Finish (SetTag (SetTag (SetTag (SetTag (DBStatement_Set (Error_Set w sp s.HasError) sp
          s.SQL) sp "db.table" (TagValue.str s.TableName)) sp "db.method"
          (TagValue.str (if operation = "" then
            ToUpper U (String.mk (s.SQL.data.takeWhile (fun c => c ≠ ' '))) else operation)))
          sp "db.err" (TagValue.bool s.HasError)) sp "db.count"
          (TagValue.int64 s.DB.RowsAffected)) sp, s, false⟩ := by
  simp [after, hs, Value.asSpan, resolveOperation_eq]

theorem after_scope (U : Char → Char) (w : World) (s : Scope) (operation : String) :
    (after U w s operation).scope = s := by
  unfold after
  split
  · rfl
  · split
    · rfl
    · split <;> rfl

theorem Hook_run_before (U : Char → Char) (c : Category) (w : World) (s : Scope) :
    c.beforeHook.run U w s = before w s := by
  cases c <;> rfl

theorem Hook_run_after (U : Char → Char) (c : Category) (w : World) (s : Scope) :
    c.afterHook.run U w s = after U w s c.label := by
  cases c <;> rfl

theorem beforeThenAfter_of_span (U : Char → Char) (c : Category) (w : World) (s : Scope)
    (p : Span) (hp : s.Get parentSpanGORMKey = some (Value.span p)) :
    beforeThenAfter U c w s =
      after U (before w s).world
        (s.Set spanGORMKey (Value.span (StartSpan w p.Tracer SQLSpanOpName [ChildOf p.Context]).2))
        c.label := by
  simp [beforeThenAfter, Run.andThen, Hook_run_before, Hook_run_after, before_of_span w s p hp]

/-! ## Registration -/

theorem registerCallbacks_frame (db : DB) (name : String) :
    (registerCallbacks db name).values = db.values ∧
    (registerCallbacks db name).Error = db.Error ∧
    (registerCallbacks db name).RowsAffected = db.RowsAffected ∧
    (registerCallbacks db name).Value = db.Value := by
  unfold registerCallbacks
  simp only []
  split_ifs <;> exact ⟨rfl, rfl, rfl, rfl⟩

theorem registerCallbacks_create (db : DB) :
    (registerCallbacks db callbackCreateName).processors = db.processors ++
      [⟨"tracing:create_before", "gorm:create", "", "create", Hook.beforeCreate⟩,
       ⟨"tracing:create_after", "", "gorm:create", "create", Hook.afterCreate⟩] := by
  simp [registerCallbacks, callbackCreateName, DB.registerBefore, DB.registerAfter]

theorem registerCallbacks_query (db : DB) :
    (registerCallbacks db callbackQueryName).processors = db.processors ++
      [⟨"tracing:query_before", "gorm:query", "", "query", Hook.beforeQuery⟩,
       ⟨"tracing:query_after", "", "gorm:query", "query", Hook.afterQuery⟩] := by
  simp [registerCallbacks, callbackCreateName, callbackQueryName, DB.registerBefore,
    DB.registerAfter]

theorem registerCallbacks_update (db : DB) :
    (registerCallbacks db callbackUpdateName).processors = db.processors ++
      [⟨"tracing:update_before", "gorm:update", "", "update", Hook.beforeUpdate⟩,
       ⟨"tracing:update_after", "", "gorm:update", "update", Hook.afterUpdate⟩] := by
  simp [registerCallbacks, callbackCreateName, callbackQueryName, callbackUpdateName,
    DB.registerBefore, DB.registerAfter]

theorem registerCallbacks_delete (db : DB) :
    (registerCallbacks db callbackDeleteName).processors = db.processors ++
      [⟨"tracing:delete_before", "gorm:delete", "", "delete", Hook.beforeDelete⟩,
       ⟨"tracing:delete_after", "", "gorm:delete", "delete", Hook.afterDelete⟩] := by
  simp [registerCallbacks, callbackCreateName, callbackQueryName, callbackUpdateName,
    callbackDeleteName, DB.registerBefore, DB.registerAfter]

theorem registerCallbacks_row_query (db : DB) :
    (registerCallbacks db callbackRowQueryName).processors = db.processors ++
      [⟨"tracing:row_query_before", "gorm:row_query", "", "row_query", Hook.beforeRowQuery⟩,
       ⟨"tracing:row_query_after", "", "gorm:row_query", "row_query", Hook.afterRowQuery⟩] := by
  simp [registerCallbacks, callbackCreateName, callbackQueryName, callbackUpdateName,
    callbackDeleteName, callbackRowQueryName, DB.registerBefore, DB.registerAfter]

theorem AddGORMCallbacks_processors (db : DB) :
    (AddGORMCallbacks db).processors = db.processors ++
      [⟨"tracing:create_before", "gorm:create", "", "create", Hook.beforeCreate⟩,
       ⟨"tracing:create_after", "", "gorm:create", "create", Hook.afterCreate⟩,
       ⟨"tracing:query_before", "gorm:query", "", "query", Hook.beforeQuery⟩,
       ⟨"tracing:query_after", "", "gorm:query", "query", Hook.afterQuery⟩,
       ⟨"tracing:update_before", "gorm:update", "", "update", Hook.beforeUpdate⟩,
       ⟨"tracing:update_after", "", "gorm:update", "update", Hook.afterUpdate⟩,
       ⟨"tracing:delete_before", "gorm:delete", "", "delete", Hook.beforeDelete⟩,
       ⟨"tracing:delete_after", "", "gorm:delete", "delete", Hook.afterDelete⟩,
       ⟨"tracing:row_query_before", "gorm:row_query", "", "row_query", Hook.beforeRowQuery⟩,
       ⟨"tracing:row_query_after", "", "gorm:row_query", "row_query", Hook.afterRowQuery⟩] := by
  unfold AddGORMCallbacks
  simp only [registerCallbacks_row_query, registerCallbacks_delete, registerCallbacks_update,
    registerCallbacks_query, registerCallbacks_create, List.append_assoc, List.cons_append,
    List.nil_append]

theorem AddGORMCallbacks_frame (db : DB) :
    (AddGORMCallbacks db).values = db.values ∧
    (AddGORMCallbacks db).Error = db.Error ∧
    (AddGORMCallbacks db).RowsAffected = db.RowsAffected ∧
    (AddGORMCallbacks db).Value = db.Value := by
  unfold AddGORMCallbacks
  simp only [registerCallbacks_frame, and_self]

/-! ## One query through a handle -/

theorem First_of_span (U : Char → Char) (o : Outcome) (w : World) (db : DB)
    (value tableName : String) (p : Span)
    (hp : db.Get parentSpanGORMKey = some (Value.span p)) :
    (First U o w db value tableName).world.finished =
      w.finished ++ [(StartSpan w p.Tracer SQLSpanOpName [ChildOf p.Context]).2] := by
  have hs : (db.NewScope value tableName).Get parentSpanGORMKey = some (Value.span p) := hp
  have hexec : ∀ (s : Scope) (sp : Span),
      (execute o (s.Set spanGORMKey (Value.span sp))).Get spanGORMKey = some (Value.span sp) := by
    intro s sp
    simp [execute, Scope.Set, Scope.Get, DB.Get, DB.InstantSet, load_store_same]
  unfold First beforeQuery afterQuery
  rw [before_of_span _ _ _ hs]
  simp only [Run.andThen, Bool.false_eq_true, if_false]
  rw [after_of_span U _ _ _ _ (hexec _ _)]
  simp [Finish, SetTag, DBType_Set, DBStatement_Set, Error_Set, StartSpan]

theorem WithContext_of_span (ctx : Context) (sp : Span) (db : DB) :
    (WithContext (some (ContextWithSpan ctx sp)) db).Get parentSpanGORMKey
      = some (Value.span sp) := by
  simp [WithContext, SetSpanToGORM, SpanFromContext, ContextWithSpan, DB.Set, DB.InstantSet,
    DB.clone, DB.Get, load_store_same]

theorem Handler_finished (U : Char → Char) (o : Outcome) (w : World) (tr : Nat) (ctx : Context)
    (db : DB) (value tableName : String) :
    ∃ sqlSpan handlerSpan : Span,
      (Handler U o w tr ctx db value tableName).finished
        = w.finished ++ [sqlSpan, handlerSpan] ∧
      sqlSpan.tracer = tr ∧ handlerSpan.tracer = tr ∧
      sqlSpan.operationName = SQLSpanOpName ∧
      handlerSpan.operationName = spanSecondOpName ∧
      sqlSpan.parentID = handlerSpan.Context.spanID ∧
      sqlSpan.Context.spanID = handlerSpan.Context.spanID + 2 := by
  unfold Handler StartSpanFromContext
  simp only []
  generalize (match SpanFromContext ctx with
    | some parentSpan => [ChildOf parentSpan.Context]
    | none => []) = opts
  refine ⟨(StartSpan (StartSpan w tr spanSecondOpName opts).1
        (StartSpan w tr spanSecondOpName opts).2.Tracer SQLSpanOpName
        [ChildOf (StartSpan w tr spanSecondOpName opts).2.Context]).2,
      (StartSpan w tr spanSecondOpName opts).2, ?_, ?_, ?_, ?_, ?_, ?_, ?_⟩
  · simp only [Finish]
    rw [First_of_span U o _ _ value tableName _ (WithContext_of_span ctx _ db)]
    simp [StartSpan]
  · cases opts <;> rfl
  · cases opts <;> rfl
  · rfl
  · cases opts <;> rfl
  · rfl
  · cases opts <;> rfl

/-! ## Handles in memory -/

theorem getElem?_concat_old (cs : List DB) (x : DB) (b : Nat) (d : DB)
    (h : cs[b]? = some d) : (cs ++ [x])[b]? = some d := by
  induction cs generalizing b with
  | nil => simp at h
  | cons e rest ih =>
    cases b with
    | zero => simpa using h
    | succ n =>
      have h2 : rest[n]? = some d := by simpa using h
      simpa using ih n h2

theorem getElem?_concat_new (cs : List DB) (x : DB) : (cs ++ [x])[cs.length]? = some x := by
  induction cs with
  | nil => rfl
  | cons e rest ih => simp

theorem set_concat_new (cs : List DB) (c x : DB) : (cs ++ [c]).set cs.length x = cs ++ [x] := by
  induction cs with
  | nil => rfl
  | cons e rest ih => simp

theorem lt_length_of_getElem? (cs : List DB) (b : Nat) (d : DB) (h : cs[b]? = some d) :
    b < cs.length := by
  induction cs generalizing b with
  | nil => simp at h
  | cons e rest ih =>
    cases b with
    | zero => simp
    | succ n =>
      have h2 : rest[n]? = some d := by simpa using h
      have := ih n h2
      simp
      omega

theorem Memory_Set_eq (m : Memory) (a : Nat) (db : DB) (name : String) (value : Value)
    (ha : m.read a = some db) :
    m.Set a name value = some (⟨m.cells ++ [db.Set name value]⟩, m.cells.length) := by
  unfold Memory.Set
  rw [ha]
  simp only [Memory.alloc, Memory.InstantSet, Memory.read, getElem?_concat_new,
    set_concat_new]
  rfl

theorem DB_Set_RowsAffected (db : DB) (name : String) (value : Value) :
    (db.Set name value).RowsAffected = 0 := rfl

/-! ## Invariant of the settings -/

theorem spanKeyGuarded_SetSpanToGORM (ctx : Option Context) (db : DB)
    (h : db.spanKeyGuarded = true) : (SetSpanToGORM ctx db).spanKeyGuarded = true := by
  cases ctx with
  | none => exact h
  | some c =>
    cases hc : SpanFromContext c with
    | none => simpa [SetSpanToGORM, hc] using h
    | some p =>
      simp [SetSpanToGORM, hc, DB.spanKeyGuarded, DB.Set, DB.InstantSet, DB.clone, DB.Get,
        load_store_same]

theorem spanKeyGuarded_NewScope (db : DB) (value tableName : String) :
    (db.NewScope value tableName).db.spanKeyGuarded = db.spanKeyGuarded := rfl

theorem spanKeyGuarded_execute (o : Outcome) (s : Scope) :
    (execute o s).db.spanKeyGuarded = s.db.spanKeyGuarded := rfl

theorem spanKeyGuarded_before (w : World) (s : Scope) (h : s.db.spanKeyGuarded = true) :
    (before w s).scope.db.spanKeyGuarded = true := by
  cases hp : s.Get parentSpanGORMKey with
  | none => rw [before_of_absent w s hp]; exact h
  | some v =>
    cases v with
    | other repr => rw [before_of_non_span w s repr hp]; exact h
    | span p =>
      rw [before_of_span w s p hp]
      have hne : parentSpanGORMKey ≠ spanGORMKey := by decide
      have h1 := Scope_Get_Set_ne s spanGORMKey parentSpanGORMKey
        (Value.span (StartSpan w p.Tracer SQLSpanOpName [ChildOf p.Context]).2) hne
      have h2 : (s.Set spanGORMKey
          (Value.span (StartSpan w p.Tracer SQLSpanOpName [ChildOf p.Context]).2)).db.Get
          parentSpanGORMKey = some (Value.span p) := by
        rw [← hp]
        exact h1
      simp [DB.spanKeyGuarded, h2]

theorem spanKeyGuarded_after (U : Char → Char) (w : World) (s : Scope) (operation : String)
    (h : s.db.spanKeyGuarded = true) :
    (after U w s operation).scope.db.spanKeyGuarded = true := by
  rw [after_scope]
  exact h

theorem span_absent_of_guarded (s : Scope) (h : s.db.spanKeyGuarded = true)
    (hp : s.Get parentSpanGORMKey = none) : s.Get spanGORMKey = none := by
  have hp2 : s.db.Get parentSpanGORMKey = none := hp
  have : s.db.Get spanGORMKey = none := by
    simpa [DB.spanKeyGuarded, hp2] using h
  exact this

/-! ## Claims -/

/-- Claim C1: on a scope whose parent-span key holds a span, for each of the five categories,
the before-hook starts exactly one span and finishes none, and the after-hook that follows
starts none and finishes exactly that span, once; neither hook panics. -/
theorem C1_one_span_started_and_finished_once (U : Char → Char) (c : Category) (w : World)
    (s : Scope) (p : Span) (hp : s.Get parentSpanGORMKey = some (Value.span p)) :
    ∃ sp : Span,
      (c.beforeHook.run U w s).panicked = false ∧
      (c.beforeHook.run U w s).world.started = w.started ++ [sp] ∧
      (c.beforeHook.run U w s).world.finished = w.finished ∧
      (beforeThenAfter U c w s).panicked = false ∧
      (beforeThenAfter U c w s).world.started = w.started ++ [sp] ∧
      (beforeThenAfter U c w s).world.finished = w.finished ++ [sp] := by
  refine ⟨(StartSpan w p.Tracer SQLSpanOpName [ChildOf p.Context]).2, ?_⟩
  rw [beforeThenAfter_of_span U c w s p hp, after_of_span U _ _ _ _ (Scope_Get_Set _ _ _),
    Hook_run_before, before_of_span w s p hp]
  simp [DBType_Set, DBStatement_Set, Error_Set, SetTag, Finish, StartSpan]

/-- Witness of C1: a query on `tracedScope`, whose parent span is `rootSpan`. -/
theorem C1_one_span_started_and_finished_once_witness :
    tracedScope.Get parentSpanGORMKey = some (Value.span rootSpan) ∧
    ∃ sp : Span,
      (Category.query.beforeHook.run id tracedWorld tracedScope).panicked = false ∧
      (Category.query.beforeHook.run id tracedWorld tracedScope).world.started
        = tracedWorld.started ++ [sp] ∧
      (Category.query.beforeHook.run id tracedWorld tracedScope).world.finished
        = tracedWorld.finished ∧
      (beforeThenAfter id Category.query tracedWorld tracedScope).panicked = false ∧
      (beforeThenAfter id Category.query tracedWorld tracedScope).world.started
        = tracedWorld.started ++ [sp] ∧
      (beforeThenAfter id Category.query tracedWorld tracedScope).world.finished
        = tracedWorld.finished ++ [sp] :=
  ⟨by decide,
    C1_one_span_started_and_finished_once id Category.query tracedWorld tracedScope rootSpan
      (by decide)⟩

/-- Claim C2: on a scope without the parent-span key the before-hook starts no span and returns
the scope and the tracer side as they were; the span key, absent before the hook, is absent
after it, and the after-hook that follows, whatever its label, sets no tag, finishes no span and
does not panic, so the tracer side after both hooks is the one before them.  The span key is
absent in particular on every scope that keeps the invariant `spanKeyGuarded`. -/
theorem C2_no_parent_span_is_a_no_op (U : Char → Char) (w : World) (s : Scope)
    (hp : s.Get parentSpanGORMKey = none) :
    before w s = ⟨w, s, false⟩ ∧
    (s.Get spanGORMKey = none →
      (before w s).scope.Get spanGORMKey = none ∧
      ∀ operation : String,
        (before w s).andThen (fun w1 s1 => after U w1 s1 operation) = ⟨w, s, false⟩) ∧
    (s.db.spanKeyGuarded = true →
      (before w s).scope.Get spanGORMKey = none ∧
      ∀ operation : String,
        (before w s).andThen (fun w1 s1 => after U w1 s1 operation) = ⟨w, s, false⟩) := by
  have key : s.Get spanGORMKey = none →
      (before w s).scope.Get spanGORMKey = none ∧
      ∀ operation : String,
        (before w s).andThen (fun w1 s1 => after U w1 s1 operation) = ⟨w, s, false⟩ := by
    intro hs
    rw [before_of_absent w s hp]
    refine ⟨hs, fun operation => ?_⟩
    simp [Run.andThen, after_of_absent U w s operation hs]
  exact ⟨before_of_absent w s hp, key, fun hg => key (span_absent_of_guarded s hg hp)⟩

/-- Witness of C2: `untracedScope` has neither key and keeps the invariant. -/
theorem C2_no_parent_span_is_a_no_op_witness :
    untracedScope.Get parentSpanGORMKey = none ∧ untracedScope.Get spanGORMKey = none ∧
    untracedScope.db.spanKeyGuarded = true ∧
    (before freshWorld untracedScope).andThen (fun w1 s1 => after id w1 s1 "SELECT")
      = ⟨freshWorld, untracedScope, false⟩ ∧
    (before freshWorld untracedScope).scope.Get spanGORMKey = none :=
  ⟨by decide, by decide, by decide,
    ((C2_no_parent_span_is_a_no_op id freshWorld untracedScope (by decide)).2.1
      (by decide)).2 "SELECT",
    ((C2_no_parent_span_is_a_no_op id freshWorld untracedScope (by decide)).2.2
      (by decide)).1⟩

/-- Claim C3: on a scope with a parent span, for each of the five categories, the span that
before-hook plus after-hook finish carries exactly seven tags: `db.type` is `SQLSpanOpName`,
`error` and `db.err` are the error flag of the scope, `db.statement` its rendered SQL,
`db.table` its table name, `db.method` the resolved operation label and `db.count` its
rows-affected count; nothing depends on the values being non-zero. -/
theorem C3_finished_span_has_the_seven_tags (U : Char → Char) (c : Category) (w : World)
    (s : Scope) (p : Span) (hp : s.Get parentSpanGORMKey = some (Value.span p)) :
    ∃ (sp : Span) (operation : String),
      resolveOperation U c.label s.SQL = some operation ∧
      (beforeThenAfter U c w s).world.finished = w.finished ++ [sp] ∧
      (beforeThenAfter U c w s).world.tagsOf sp =
        [("db.type", TagValue.str SQLSpanOpName),
         ("error", TagValue.bool s.HasError),
         ("db.statement", TagValue.str s.SQL),
         ("db.table", TagValue.str s.TableName),
         ("db.method", TagValue.str operation),
         ("db.err", TagValue.bool s.HasError),
         ("db.count", TagValue.int64 s.DB.RowsAffected)] ∧
      ((beforeThenAfter U c w s).world.tagsOf sp).length = 7 := by
  refine ⟨(StartSpan w p.Tracer SQLSpanOpName [ChildOf p.Context]).2, _,
    resolveOperation_eq U c.label s.SQL, ?_⟩
  rw [beforeThenAfter_of_span U c w s p hp, after_of_span U _ _ _ _ (Scope_Get_Set _ _ _),
    before_of_span w s p hp]
  simp only [tagsOf_Finish, tagsOf_SetTag, DBType_Set, DBStatement_Set, Error_Set,
    tagsOf_StartSpan]
  refine ⟨by simp [Finish, SetTag, StartSpan], ?_⟩
  simp [store, Scope.Set, DB.InstantSet, Scope.HasError, Scope.TableName, Scope.DB]

/-- Witness of C3: a query on `tracedScope`. -/
theorem C3_finished_span_has_the_seven_tags_witness :
    tracedScope.Get parentSpanGORMKey = some (Value.span rootSpan) ∧
    ∃ (sp : Span) (operation : String),
      resolveOperation id Category.query.label tracedScope.SQL = some operation ∧
      (beforeThenAfter id Category.query tracedWorld tracedScope).world.finished
        = tracedWorld.finished ++ [sp] ∧
      (beforeThenAfter id Category.query tracedWorld tracedScope).world.tagsOf sp =
        [("db.type", TagValue.str SQLSpanOpName),
         ("error", TagValue.bool tracedScope.HasError),
         ("db.statement", TagValue.str tracedScope.SQL),
         ("db.table", TagValue.str tracedScope.TableName),
         ("db.method", TagValue.str operation),
         ("db.err", TagValue.bool tracedScope.HasError),
         ("db.count", TagValue.int64 tracedScope.DB.RowsAffected)] ∧
      ((beforeThenAfter id Category.query tracedWorld tracedScope).world.tagsOf sp).length = 7 :=
  ⟨by decide,
    C3_finished_span_has_the_seven_tags id Category.query tracedWorld tracedScope rootSpan
      (by decide)⟩

/-- Counterexample to C4 as stated: the code cuts the statement at the first space only.  A
first token followed by a tab stays glued to what follows, and a statement that starts with a
space yields the empty label, where splitting on white space gives `SELECT` both times; the
`db.method` tag written by the row-query after-hook shows the same. -/
theorem C4_counterexample_tab_and_leading_space :
    resolveOperation id "" "select\t1" = some "SELECT\t1" ∧
    classify id "" "select\t1" = "SELECT" ∧
    resolveOperation id "" " select 1" = some "" ∧
    classify id "" " select 1" = "SELECT" ∧
    load ((afterRowQuery id tracedWorld (openScope "select\t1")).world.tagsOf rootSpan)
      "db.method" = some (TagValue.str "SELECT\t1") ∧
    load ((afterRowQuery id tracedWorld (openScope " select 1")).world.tagsOf rootSpan)
      "db.method" = some (TagValue.str "") := by
  decide

/-- Claim C4, amended: a non-empty fixed label is the resolved label, unchanged (`INSERT`,
`SELECT`, `UPDATE`, `DELETE` for create, query, update, delete); for the empty fixed label
(row_query) the resolved label is the upper-cased text of the statement up to its first space
character, the whole statement when it has no space; and the label so resolved is what the
after-hook writes under `db.method`. -/
theorem C4_label_is_fixed_or_text_before_first_space (U : Char → Char)
    (fixed_label statement : String) :
    (fixed_label ≠ "" → resolveOperation U fixed_label statement = some fixed_label) ∧
    resolveOperation U "" statement =
      some (ToUpper U (String.mk (statement.data.takeWhile (fun c => c ≠ ' ')))) ∧
    (Category.create.label = "INSERT" ∧ Category.query.label = "SELECT" ∧
      Category.update.label = "UPDATE" ∧ Category.delete.label = "DELETE" ∧
      Category.row_query.label = "") ∧
    (∀ (w : World) (s : Scope) (sp : Span), s.Get spanGORMKey = some (Value.span sp) →
      load ((after U w s fixed_label).world.tagsOf sp) "db.method"
        = (resolveOperation U fixed_label s.SQL).map TagValue.str) := by
  refine ⟨fun h => ?_, ?_, ⟨rfl, rfl, rfl, rfl, rfl⟩, fun w s sp hs => ?_⟩
  · simp [resolveOperation_eq, h]
  · simp [resolveOperation_eq]
  · rw [after_of_span U w s fixed_label sp hs, resolveOperation_eq]
    simp only [tagsOf_Finish, tagsOf_SetTag]
    have h1 : ("db.method" : String) ≠ "db.count" := by decide
    have h2 : ("db.method" : String) ≠ "db.err" := by decide
    rw [load_store_ne _ _ _ _ h1, load_store_ne _ _ _ _ h2, load_store_same]
    rfl

/-- Witness of C4: the fixed label `SELECT` on a statement that is not a query. -/
theorem C4_label_is_fixed_or_text_before_first_space_witness :
    ("SELECT" : String) ≠ "" ∧
    resolveOperation id "SELECT" "drop table products" = some "SELECT" ∧
    (openScope "select 1").Get spanGORMKey = some (Value.span rootSpan) ∧
    load ((after id tracedWorld (openScope "select 1") "SELECT").world.tagsOf rootSpan)
      "db.method"
        = (resolveOperation id "SELECT" (openScope "select 1").SQL).map TagValue.str :=
  ⟨by decide,
    (C4_label_is_fixed_or_text_before_first_space id "SELECT" "drop table products").1
      (by decide),
    by decide,
    (C4_label_is_fixed_or_text_before_first_space id "SELECT" "drop table products").2.2.2
      tracedWorld (openScope "select 1") rootSpan (by decide)⟩

/-- Claim C6: for a context that is nil or carries no active span, `SetSpanToGORM` returns the
handle it was given, so no parent-span entry is added; the function is total, it cannot fail;
and `WithContext` is `SetSpanToGORM` on every context and handle. -/
theorem C6_pass_through_without_active_span (ctx : Option Context) (db : DB)
    (h : ctx = none ∨ ∃ c : Context, ctx = some c ∧ SpanFromContext c = none) :
    SetSpanToGORM ctx db = db ∧
    (SetSpanToGORM ctx db).Get parentSpanGORMKey = db.Get parentSpanGORMKey ∧
    ∀ (ctx2 : Option Context) (db2 : DB), WithContext ctx2 db2 = SetSpanToGORM ctx2 db2 := by
  have h1 : SetSpanToGORM ctx db = db := by
    rcases h with h | ⟨c, hc, hn⟩
    · subst h
      rfl
    · subst hc
      simp [SetSpanToGORM, hn]
  exact ⟨h1, by rw [h1], fun _ _ => rfl⟩

/-- Witness of C6: a context without active span, and the handle `plainDB`. -/
theorem C6_pass_through_without_active_span_witness :
    SetSpanToGORM (some ⟨none⟩) plainDB = plainDB ∧
    (SetSpanToGORM (some ⟨none⟩) plainDB).Get parentSpanGORMKey
      = plainDB.Get parentSpanGORMKey ∧
    ∀ (ctx2 : Option Context) (db2 : DB), WithContext ctx2 db2 = SetSpanToGORM ctx2 db2 :=
  C6_pass_through_without_active_span (some ⟨none⟩) plainDB (Or.inr ⟨⟨none⟩, rfl, rfl⟩)

/-- Claim C7: for a context with active span `p` and a handle `db` stored at address `a`,
`SetSpanToGORM` returns a pointer to a new record, the clone of `db` with `p` under the
parent-span key, every other setting, the error, the result value and the registry as in `db`;
the record of `db` itself, like every record already in memory, is left as it was.  On a scope
made from the returned handle the before-hook starts one span, on the tracer of `p`, with a
`ChildOf` reference to the context of `p` (same trace, parent identifier the span identifier of
`p`), and stores it under the span key. -/
theorem C7_started_span_is_child_of_active_span (w : World) (m : Memory) (a : Nat) (db : DB)
    (c : Context) (p : Span) (sql tableName : String) (h : SpanFromContext c = some p)
    (ha : m.read a = some db) :
    (SetSpanToGORM (some c) db).Get parentSpanGORMKey = some (Value.span p) ∧
    (∀ k : String, k ≠ parentSpanGORMKey → (SetSpanToGORM (some c) db).Get k = db.Get k) ∧
    (SetSpanToGORM (some c) db).Error = db.Error ∧
    (SetSpanToGORM (some c) db).Value = db.Value ∧
    (SetSpanToGORM (some c) db).processors = db.processors ∧
    (∃ (m2 : Memory) (a2 : Nat),
      m.SetSpanToGORM (some c) a = some (m2, a2) ∧
      m2.read a2 = some (SetSpanToGORM (some c) db) ∧
      a2 ≠ a ∧
      m2.read a = some db ∧
      ∀ (b : Nat) (d : DB), m.read b = some d → m2.read b = some d) ∧
    ∃ sp : Span,
      (StartSpan w p.Tracer SQLSpanOpName [ChildOf p.Context]).2 = sp ∧
      (before w ⟨SetSpanToGORM (some c) db, sql, tableName⟩).world.started = w.started ++ [sp] ∧
      (before w ⟨SetSpanToGORM (some c) db, sql, tableName⟩).panicked = false ∧
      (before w ⟨SetSpanToGORM (some c) db, sql, tableName⟩).scope.Get spanGORMKey
        = some (Value.span sp) ∧
      sp.Tracer = p.Tracer ∧
      sp.parentID = p.Context.spanID ∧
      sp.Context.traceID = p.Context.traceID ∧
      sp.operationName = SQLSpanOpName := by
  have hset : SetSpanToGORM (some c) db = db.Set parentSpanGORMKey (Value.span p) := by
    simp [SetSpanToGORM, h]
  have hget : (SetSpanToGORM (some c) db).Get parentSpanGORMKey = some (Value.span p) := by
    rw [hset]
    simp [DB.Set, DB.InstantSet, DB.clone, DB.Get, load_store_same]
  have hptr : m.SetSpanToGORM (some c) a =
      some (⟨m.cells ++ [SetSpanToGORM (some c) db]⟩, m.cells.length) := by
    rw [hset]
    simp only [Memory.SetSpanToGORM, h]
    exact Memory_Set_eq m a db _ _ ha
  have hlt : a < m.cells.length := lt_length_of_getElem? m.cells a db ha
  refine ⟨hget, fun k hk => ?_, by rw [hset]; rfl, by rw [hset]; rfl, by rw [hset]; rfl,
    ⟨_, _, hptr, getElem?_concat_new _ _, by omega, getElem?_concat_old _ _ _ _ ha,
      fun b d hb => getElem?_concat_old _ _ _ _ hb⟩, _, rfl, ?_⟩
  · rw [hset]
    simp [DB.Set, DB.InstantSet, DB.clone, DB.Get, load_store_ne _ _ _ _ hk]
  · have hs : (⟨SetSpanToGORM (some c) db, sql, tableName⟩ : Scope).Get parentSpanGORMKey
        = some (Value.span p) := hget
    rw [before_of_span w _ p hs]
    refine ⟨by simp [DBType_Set, SetTag, StartSpan], rfl, Scope_Get_Set _ _ _, rfl, rfl, rfl,
      rfl⟩

/-- Witness of C7: the context in which `rootSpan` is active, and `plainDB` at address 0 of
`plainMemory`. -/
theorem C7_started_span_is_child_of_active_span_witness :
    SpanFromContext ⟨some rootSpan⟩ = some rootSpan ∧
    plainMemory.read 0 = some plainDB ∧
    (SetSpanToGORM (some ⟨some rootSpan⟩) plainDB).Get parentSpanGORMKey
      = some (Value.span rootSpan) ∧
    spanGORMKey ≠ parentSpanGORMKey ∧
    (SetSpanToGORM (some ⟨some rootSpan⟩) plainDB).Get spanGORMKey = plainDB.Get spanGORMKey ∧
    ∃ (m2 : Memory) (a2 : Nat),
      plainMemory.SetSpanToGORM (some ⟨some rootSpan⟩) 0 = some (m2, a2) ∧
      m2.read a2 = some (SetSpanToGORM (some ⟨some rootSpan⟩) plainDB) ∧
      a2 ≠ 0 ∧
      m2.read 0 = some plainDB ∧
      ∀ (b : Nat) (d : DB), plainMemory.read b = some d → m2.read b = some d :=
  ⟨rfl, rfl,
    (C7_started_span_is_child_of_active_span tracedWorld plainMemory 0 plainDB
      ⟨some rootSpan⟩ rootSpan "SELECT 1" "products" rfl rfl).1,
    by decide,
    (C7_started_span_is_child_of_active_span tracedWorld plainMemory 0 plainDB
      ⟨some rootSpan⟩ rootSpan "SELECT 1" "products" rfl rfl).2.1 spanGORMKey (by decide),
    (C7_started_span_is_child_of_active_span tracedWorld plainMemory 0 plainDB
      ⟨some rootSpan⟩ rootSpan "SELECT 1" "products" rfl rfl).2.2.2.2.2.1⟩

/-- Claim C8: for every scope and each of the five categories, with or without a parent span,
neither hook changes the outcome of the operation: error state, rendered SQL, table name,
rows-affected count and result value are after the hook what they were before it.  The
after-hook returns the scope as it was; the before-hook returns it as it was or with the span
key written, every other setting untouched. -/
theorem C8_hooks_leave_the_outcome_unchanged (U : Char → Char) (c : Category) (w : World)
    (s : Scope) :
    (c.afterHook.run U w s).scope = s ∧
    ((c.beforeHook.run U w s).scope = s ∨
      ∃ sp : Span, (c.beforeHook.run U w s).scope = s.Set spanGORMKey (Value.span sp)) ∧
    (c.beforeHook.run U w s).scope.db.Error = s.db.Error ∧
    (c.beforeHook.run U w s).scope.HasError = s.HasError ∧
    (c.beforeHook.run U w s).scope.SQL = s.SQL ∧
    (c.beforeHook.run U w s).scope.TableName = s.TableName ∧
    (c.beforeHook.run U w s).scope.DB.RowsAffected = s.DB.RowsAffected ∧
    (c.beforeHook.run U w s).scope.DB.Value = s.DB.Value ∧
    (c.beforeHook.run U w s).scope.DB.processors = s.DB.processors ∧
    ∀ k : String, k ≠ spanGORMKey → (c.beforeHook.run U w s).scope.Get k = s.Get k := by
  have hcases : (before w s).scope = s ∨
      ∃ sp : Span, (before w s).scope = s.Set spanGORMKey (Value.span sp) := by
    unfold before
    split
    · exact Or.inl rfl
    · split
      · exact Or.inl rfl
      · exact Or.inr ⟨_, rfl⟩
  rw [Hook_run_after, Hook_run_before]
  refine ⟨after_scope U w s c.label, hcases, ?_⟩
  rcases hcases with h | ⟨sp, h⟩
  · rw [h]
    exact ⟨rfl, rfl, rfl, rfl, rfl, rfl, rfl, fun _ _ => rfl⟩
  · rw [h]
    exact ⟨rfl, rfl, rfl, rfl, rfl, rfl, rfl, fun k hk => Scope_Get_Set_ne s _ k _ hk⟩

/-- Witness of C8: the query hooks on `tracedScope`; the parent-span key is not the span
key, so the before-hook leaves it as it was. -/
theorem C8_hooks_leave_the_outcome_unchanged_witness :
    parentSpanGORMKey ≠ spanGORMKey ∧
    (Category.query.beforeHook.run id tracedWorld tracedScope).scope.Get parentSpanGORMKey
      = tracedScope.Get parentSpanGORMKey ∧
    (Category.query.afterHook.run id tracedWorld tracedScope).scope = tracedScope :=
  ⟨by decide,
    (C8_hooks_leave_the_outcome_unchanged id Category.query tracedWorld tracedScope).2.2.2.2.2.2.2.2.2
      parentSpanGORMKey (by decide),
    (C8_hooks_leave_the_outcome_unchanged id Category.query tracedWorld tracedScope).1⟩

/-- Claim C9: the row-query after-hook never fails on the statement.  Splitting any string at
spaces gives at least one element, so index 0 is in bounds; on a scope holding a span the hook
does not panic, writes its six tags (`db.method` being the resolved label) and finishes the
span; the label resolved for the empty statement is the empty string. -/
theorem C9_row_query_label_never_fails (U : Char → Char) (w : World) (s : Scope) (sp : Span)
    (hs : s.Get spanGORMKey = some (Value.span sp)) :
    (∀ sql : String, 0 < (Split sql ' ').length) ∧
    (afterRowQuery U w s).panicked = false ∧
    (afterRowQuery U w s).world.finished = w.finished ++ [sp] ∧
    resolveOperation U "" "" = some "" ∧
    ∃ label : String,
      resolveOperation U "" s.SQL = some label ∧
      load ((afterRowQuery U w s).world.tagsOf sp) "error" = some (TagValue.bool s.HasError) ∧
      load ((afterRowQuery U w s).world.tagsOf sp) "db.statement" = some (TagValue.str s.SQL) ∧
      load ((afterRowQuery U w s).world.tagsOf sp) "db.table"
        = some (TagValue.str s.TableName) ∧
      load ((afterRowQuery U w s).world.tagsOf sp) "db.method" = some (TagValue.str label) ∧
      load ((afterRowQuery U w s).world.tagsOf sp) "db.err" = some (TagValue.bool s.HasError) ∧
      load ((afterRowQuery U w s).world.tagsOf sp) "db.count"
        = some (TagValue.int64 s.DB.RowsAffected) := by
  refine ⟨fun sql => ?_, ?_⟩
  · have hh := Split_head sql ' '
    cases hl : Split sql ' ' with
    | nil => rw [hl] at hh; simp at hh
    | cons a l => simp
  · unfold afterRowQuery
    rw [after_of_span U w s "" sp hs]
    refine ⟨rfl, by simp [Finish, SetTag, DBStatement_Set, Error_Set], ?_, _,
      resolveOperation_eq U "" s.SQL, ?_⟩
    · simp [resolveOperation_eq, ToUpper]
    · simp only [tagsOf_Finish, tagsOf_SetTag, DBStatement_Set, Error_Set]
      have n1 : ("error" : String) ≠ "db.statement" := by decide
      have n2 : ("error" : String) ≠ "db.table" := by decide
      have n3 : ("error" : String) ≠ "db.method" := by decide
      have n4 : ("error" : String) ≠ "db.err" := by decide
      have n5 : ("error" : String) ≠ "db.count" := by decide
      have n6 : ("db.statement" : String) ≠ "db.table" := by decide
      have n7 : ("db.statement" : String) ≠ "db.method" := by decide
      have n8 : ("db.statement" : String) ≠ "db.err" := by decide
      have n9 : ("db.statement" : String) ≠ "db.count" := by decide
      have n10 : ("db.table" : String) ≠ "db.method" := by decide
      have n11 : ("db.table" : String) ≠ "db.err" := by decide
      have n12 : ("db.table" : String) ≠ "db.count" := by decide
      have n13 : ("db.method" : String) ≠ "db.err" := by decide
      have n14 : ("db.method" : String) ≠ "db.count" := by decide
      have n15 : ("db.err" : String) ≠ "db.count" := by decide
      refine ⟨?_, ?_, ?_, ?_, ?_, ?_⟩
      · rw [load_store_ne _ _ _ _ n5, load_store_ne _ _ _ _ n4, load_store_ne _ _ _ _ n3,
          load_store_ne _ _ _ _ n2, load_store_ne _ _ _ _ n1, load_store_same]
      · rw [load_store_ne _ _ _ _ n9, load_store_ne _ _ _ _ n8, load_store_ne _ _ _ _ n7,
          load_store_ne _ _ _ _ n6, load_store_same]
      · rw [load_store_ne _ _ _ _ n12, load_store_ne _ _ _ _ n11, load_store_ne _ _ _ _ n10,
          load_store_same]
      · rw [load_store_ne _ _ _ _ n14, load_store_ne _ _ _ _ n13, load_store_same]
      · rw [load_store_ne _ _ _ _ n15, load_store_same]
      · rw [load_store_same]

/-- Witness of C9: the empty statement on a scope that holds `rootSpan`. -/
theorem C9_row_query_label_never_fails_witness :
    (openScope "").Get spanGORMKey = some (Value.span rootSpan) ∧
    (afterRowQuery id tracedWorld (openScope "")).panicked = false ∧
    (afterRowQuery id tracedWorld (openScope "")).world.finished
      = tracedWorld.finished ++ [rootSpan] ∧
    load ((afterRowQuery id tracedWorld (openScope "")).world.tagsOf rootSpan) "db.method"
      = some (TagValue.str "") :=
  ⟨by decide,
    (C9_row_query_label_never_fails id tracedWorld (openScope "") rootSpan (by decide)).2.1,
    (C9_row_query_label_never_fails id tracedWorld (openScope "") rootSpan (by decide)).2.2.1,
    by decide⟩

/-- Claim C10: `AddGORMCallbacks` adds exactly ten registrations to the handle and changes
nothing else.  For each category `c` there is one named `tracing:<c>_before`, in the chain of
`c`, placed before `gorm:<c>` and bound to the before-function of `c`, and one named
`tracing:<c>_after`, in the chain of `c`, placed after `gorm:<c>` and bound to the
after-function of `c`; the ten names are pairwise distinct. -/
theorem C10_ten_hooks_registered (db : DB) :
    ∃ added : List CallbackProcessor,
      (AddGORMCallbacks db).processors = db.processors ++ added ∧
      added.length = 10 ∧
      (∀ c : Category,
        (⟨"tracing:" ++ c.name ++ "_before", "gorm:" ++ c.name, "", c.name, c.beforeHook⟩ :
          CallbackProcessor) ∈ added ∧
        (⟨"tracing:" ++ c.name ++ "_after", "", "gorm:" ++ c.name, c.name, c.afterHook⟩ :
          CallbackProcessor) ∈ added) ∧
      (added.map (fun cp => cp.name)).Nodup ∧
      (AddGORMCallbacks db).values = db.values ∧
      (AddGORMCallbacks db).Error = db.Error ∧
      (AddGORMCallbacks db).RowsAffected = db.RowsAffected ∧
      (AddGORMCallbacks db).Value = db.Value := by
  refine ⟨_, AddGORMCallbacks_processors db, rfl, ?_, by decide, AddGORMCallbacks_frame db⟩
  intro c
  cases c <;> decide

/-- Claim C5: whatever the tracer side was, provided the tracer has no finished span, after
`Handler` (outer span `handler`, handle derived with `WithContext`, one query with before-hook,
built-in step and after-hook, outer span finished) the tracer lists exactly two finished spans:
first the database span, named `SQLSpanOpName` and child of the outer span, then the span named
`handler`. -/
theorem C5_handler_finishes_sql_span_then_handler_span (U : Char → Char) (o : Outcome)
    (w : World) (tr : Nat) (ctx : Context) (db : DB) (value tableName : String)
    (h : FinishedSpans w tr = []) :
    ∃ sqlSpan handlerSpan : Span,
      FinishedSpans (Handler U o w tr ctx db value tableName) tr = [sqlSpan, handlerSpan] ∧
      (FinishedSpans (Handler U o w tr ctx db value tableName) tr).length = 2 ∧
      sqlSpan.operationName = SQLSpanOpName ∧
      handlerSpan.operationName = spanSecondOpName ∧
      sqlSpan.parentID = handlerSpan.Context.spanID ∧
      sqlSpan ≠ handlerSpan := by
  obtain ⟨sqlSpan, handlerSpan, hfin, ht1, ht2, hn1, hn2, hpar, hid⟩ :=
    Handler_finished U o w tr ctx db value tableName
  have h0 : List.filter (fun sp => decide (sp.tracer = tr)) w.finished = [] := h
  have hlist :
      FinishedSpans (Handler U o w tr ctx db value tableName) tr = [sqlSpan, handlerSpan] := by
    unfold FinishedSpans
    rw [hfin]
    simp [List.filter_append, h0, ht1, ht2, List.filter_cons]
  refine ⟨sqlSpan, handlerSpan, hlist, by rw [hlist]; rfl, hn1, hn2, hpar, fun e => ?_⟩
  rw [e] at hid
  omega

/-- Witness of C5: the scenario of the test, from `freshWorld`, with the background context and
the handle `plainDB` after `AddGORMCallbacks`. -/
theorem C5_handler_finishes_sql_span_then_handler_span_witness :
    FinishedSpans freshWorld 0 = [] ∧
    ∃ sqlSpan handlerSpan : Span,
      FinishedSpans (Handler id ⟨"SELECT * FROM products", none, 1, "L1108"⟩ freshWorld 0
        ⟨none⟩ (AddGORMCallbacks plainDB) "product" "products") 0 = [sqlSpan, handlerSpan] ∧
      (FinishedSpans (Handler id ⟨"SELECT * FROM products", none, 1, "L1108"⟩ freshWorld 0
        ⟨none⟩ (AddGORMCallbacks plainDB) "product" "products") 0).length = 2 ∧
      sqlSpan.operationName = SQLSpanOpName ∧
      handlerSpan.operationName = spanSecondOpName ∧
      sqlSpan.parentID = handlerSpan.Context.spanID ∧
      sqlSpan ≠ handlerSpan :=
  ⟨by decide,
    C5_handler_finishes_sql_span_then_handler_span id
      ⟨"SELECT * FROM products", none, 1, "L1108"⟩ freshWorld 0 ⟨none⟩
      (AddGORMCallbacks plainDB) "product" "products" (by decide)⟩

end Otgorm
